import Mathlib

/-
  Verification of the message-batching core of this repository
  (the RollingMessageCollector / MessagingMixin subsystem exercised by
  tests/unit/messaging/test_unified_batching.py).

  The implementation of the batching core (the playbooks package:
  playbooks.meetings.meeting_manager.RollingMessageCollector,
  playbooks.agents.messaging_mixin.MessagingMixin,
  playbooks.core.message.Message) is not part of the repository sources;
  only its test file is.  The definitions below therefore model that
  missing component from the specification, as a deterministic
  discrete-event semantics: time is a natural-number clock, producer
  activity is a list of events (message arrivals and time passage), and
  timer firing is resolved at each time-passage event.  This matches the
  spec's single-threaded cooperative concurrency model, in which timer
  waits are the only suspension points.
-/

/-- Modelled from the spec: the message_type variant tag of the missing
playbooks.core.message.MessageType enumeration. -/
inductive MessageType where
  | DIRECT
  | MEETING_BROADCAST
  | MEETING_INVITATION
deriving DecidableEq

/-- Modelled from the spec: the immutable Message record of the missing
playbooks.core.message module.  Identifiers are opaque strings; recipient
fields are absent for broadcasts; meeting_id is present iff the message is
meeting-scoped. -/
structure Message where
  sender_id : String
  sender_klass : String
  recipient_id : Option String
  recipient_klass : Option String
  message_type : MessageType
  content : String
  meeting_id : Option String
deriving DecidableEq

/-- Modelled from the spec: a distinguished sentinel sender identity denotes
a human sender.  The test file uses the sender_id value "human" for the
sentinel while sender_klass carries an independent declared class name. -/
def isHuman (m : Message) : Bool :=
  decide (m.sender_id = "human")

/-- Modelled from the spec: the routing context — the
(recipient, meeting-or-direct) grouping key under which messages are
batched: a meeting broadcast group when meeting-scoped, else the direct
recipient. -/
inductive RoutingContext where
  | meeting (id : String)
  | direct (recipient : Option String)
deriving DecidableEq

/-- Modelled from the spec: the routing context of a message. -/
def routingContext (m : Message) : RoutingContext :=
  match m.meeting_id with
  | some mid => RoutingContext.meeting mid
  | none => RoutingContext.direct m.recipient_id

/-- Per-context collector state: the ordered pending batch, the armed
rolling-inactivity deadline (absolute fire time, at most one armed at a
time) and the armed absolute max-wait deadline. -/
structure CtxState where
  pending : List Message
  rollingDeadline : Option Nat
  absDeadline : Option Nat
deriving DecidableEq

/-- The IDLE per-context state: no pending batch, no armed timers. -/
def CtxState.idle : CtxState :=
  { pending := [], rollingDeadline := none, absDeadline := none }

/-- Modelled from the spec: the missing
playbooks.meetings.meeting_manager.RollingMessageCollector.  It owns a
pending-message buffer and two timers per routing context, a clock, and a
log of delivered batches per context.  The delivery callback is modelled by
its observable outcome cbOk (true: the callback returned normally; false:
it raised); each delivered entry records the flushed ordered batch together
with that outcome. -/
structure RollingMessageCollector where
  timeout_seconds : Nat
  max_batch_wait : Nat
  cbOk : List Message → Bool
  now : Nat
  state : RoutingContext → CtxState
  delivered : RoutingContext → List (List Message × Bool)

/-- A fresh collector with the given configuration and callback. -/
def RollingMessageCollector.init (t w : Nat) (cb : List Message → Bool) :
    RollingMessageCollector :=
  { timeout_seconds := t, max_batch_wait := w, cbOk := cb, now := 0,
    state := fun _ => CtxState.idle, delivered := fun _ => [] }

/-- Modelled from the spec: replacing the delivery callback affects only
future flushes. -/
def RollingMessageCollector.set_delivery_callback
    (s : RollingMessageCollector) (cb : List Message → Bool) :
    RollingMessageCollector :=
  { s with cbOk := cb }

/-- Modelled from the spec: RollingMessageCollector.add_message.  Append the
message to its context's pending batch; a human-sentinel sender immediately
flushes the whole batch (delivering it, clearing the buffer and cancelling
both timers) with no time passing; otherwise (re)arm the rolling timer to
timeout_seconds from now — overwriting (cancelling) any previously armed
rolling timer — and, exactly when this is the first message of a new batch,
arm the absolute timer to max_batch_wait from now, never resetting it
afterwards. -/
def RollingMessageCollector.add_message (s : RollingMessageCollector)
    (m : Message) : RollingMessageCollector :=
  if isHuman m then
    { s with
      state := fun c =>
        if c = routingContext m then CtxState.idle else s.state c,
      delivered := fun c =>
        if c = routingContext m then
          s.delivered c ++
            [((s.state (routingContext m)).pending ++ [m],
              s.cbOk ((s.state (routingContext m)).pending ++ [m]))]
        else s.delivered c }
  else
    { s with
      state := fun c =>
        if c = routingContext m then
          { pending := (s.state (routingContext m)).pending ++ [m],
            rollingDeadline := some (s.now + s.timeout_seconds),
            absDeadline :=
              if (s.state (routingContext m)).pending.isEmpty then
                some (s.now + s.max_batch_wait)
              else (s.state (routingContext m)).absDeadline }
        else s.state c }

/-- Whether one of the two armed deadlines of a context has been reached at
time t (so its timer task, not having been cancelled, fires). -/
def deadlineDue (st : CtxState) (t : Nat) : Bool :=
  (match st.rollingDeadline with
   | some d => decide (d ≤ t)
   | none => false) ||
  (match st.absDeadline with
   | some d => decide (d ≤ t)
   | none => false)

/-- Modelled from the spec: passage of d time units with no intervening
add_message call.  Every context whose rolling or absolute deadline is
reached flushes: its pending batch is delivered, its buffer cleared and
both its timers cancelled (back to IDLE). -/
def RollingMessageCollector.elapse (s : RollingMessageCollector) (d : Nat) :
    RollingMessageCollector :=
  { s with
    now := s.now + d,
    state := fun c =>
      if deadlineDue (s.state c) (s.now + d) then CtxState.idle
      else s.state c,
    delivered := fun c =>
      if deadlineDue (s.state c) (s.now + d) then
        s.delivered c ++ [((s.state c).pending, s.cbOk ((s.state c).pending))]
      else s.delivered c }

/-- An externally observable event: a message arrival or time passage. -/
inductive Event where
  | add (m : Message)
  | sleep (d : Nat)

/-- One event applied to a collector. -/
def RollingMessageCollector.step (s : RollingMessageCollector) :
    Event → RollingMessageCollector
  | Event.add m => s.add_message m
  | Event.sleep d => s.elapse d

/-- A whole event trace applied to a collector. -/
def RollingMessageCollector.run (s : RollingMessageCollector)
    (es : List Event) : RollingMessageCollector :=
  es.foldl RollingMessageCollector.step s

/-- Modelled from the spec: MessagingMixin._add_message_to_buffer of the
missing playbooks.agents.messaging_mixin module.  If the meeting manager's
buffering hook reports the message handled, the message does not reach the
collector; otherwise it is forwarded to collector.add_message.  The hook is
modelled by its boolean verdict per message. -/
def add_message_to_buffer (handled : Message → Bool)
    (s : RollingMessageCollector) (m : Message) : RollingMessageCollector :=
  if handled m then s else s.add_message m

/-- An event on the MessagingMixin inbound path. -/
inductive MEvent where
  | recv (m : Message)
  | sleep (d : Nat)

/-- One mixin-level event. -/
def mixinStep (handled : Message → Bool) (s : RollingMessageCollector) :
    MEvent → RollingMessageCollector
  | MEvent.recv m => add_message_to_buffer handled s m
  | MEvent.sleep d => s.elapse d

/-- A whole mixin-level event trace. -/
def mixinRun (handled : Message → Bool) (s : RollingMessageCollector)
    (es : List MEvent) : RollingMessageCollector :=
  es.foldl (mixinStep handled) s

/-- The ordered batches delivered so far for a context, without callback
outcomes. -/
def deliveredBatches (s : RollingMessageCollector) (c : RoutingContext) :
    List (List Message) :=
  (s.delivered c).map Prod.fst

/-- All messages delivered so far for a context, in delivery order. -/
def deliveredJoin (s : RollingMessageCollector) (c : RoutingContext) :
    List Message :=
  ((s.delivered c).map Prod.fst).flatten

/-- The pending buffer of a context. -/
def pendingOf (s : RollingMessageCollector) (c : RoutingContext) :
    List Message :=
  (s.state c).pending

/-- The messages a single event contributes to a context. -/
def eventAdds (c : RoutingContext) : Event → List Message
  | Event.add m => if routingContext m = c then [m] else []
  | Event.sleep _ => []

/-- The messages an event trace contributes to a context, in call order. -/
def addsTo (c : RoutingContext) (es : List Event) : List Message :=
  (es.map (eventAdds c)).flatten

/-- The messages a mixin-level event forwards to the collector for a
context (a message claimed by the meeting manager contributes nothing). -/
def mevAdds (handled : Message → Bool) (c : RoutingContext) :
    MEvent → List Message
  | MEvent.recv m =>
      if handled m = false ∧ routingContext m = c then [m] else []
  | MEvent.sleep _ => []

/-- The messages a mixin-level trace forwards to the collector for a
context, in call order. -/
def mixinAddsTo (handled : Message → Bool) (c : RoutingContext)
    (es : List MEvent) : List Message :=
  (es.map (mevAdds handled c)).flatten

/-- The collector-level event a mixin-level event induces. -/
def toEvent (handled : Message → Bool) : MEvent → Option Event
  | MEvent.recv m => if handled m then none else some (Event.add m)
  | MEvent.sleep d => some (Event.sleep d)

/-- A burst tail: for each pair (g, m), g time units pass and then m
arrives. -/
def burstTail : List (Nat × Message) → List Event
  | [] => []
  | (g, m) :: rest => Event.sleep g :: Event.add m :: burstTail rest

/-- Total time spanned by a burst tail. -/
def sumGaps : List (Nat × Message) → Nat
  | [] => 0
  | (g, _) :: rest => g + sumGaps rest

/-- Internal well-formedness of a collector: an empty pending buffer has no
armed timers, and no delivered batch is empty. -/
def GoodState (s : RollingMessageCollector) : Prop :=
  (∀ c, (s.state c).pending = [] → s.state c = CtxState.idle) ∧
  (∀ c, ∀ b ∈ s.delivered c, b.1 ≠ [])

/-- Observational equivalence up to callback outcomes: same configuration,
clock, per-context states and delivered batches. -/
def Sim (s1 s2 : RollingMessageCollector) : Prop :=
  s1.timeout_seconds = s2.timeout_seconds ∧
  s1.max_batch_wait = s2.max_batch_wait ∧
  s1.now = s2.now ∧
  s1.state = s2.state ∧
  ∀ c, deliveredBatches s1 c = deliveredBatches s2 c

/-- A concrete direct-recipient agent message, as built by the test file. -/
def cexMsg (content : String) : Message :=
  { sender_id := "1001", sender_klass := "SenderAgent",
    recipient_id := some "1000", recipient_klass := some "TestAgent",
    message_type := MessageType.DIRECT, content := content,
    meeting_id := none }

/-- A concrete human direct message, as built by the test file. -/
def humanMsgW : Message :=
  { sender_id := "human", sender_klass := "HumanAgent",
    recipient_id := some "1000", recipient_klass := some "TestAgent",
    message_type := MessageType.DIRECT, content := "Human message",
    meeting_id := none }

/-- The direct routing context the concrete messages above share. -/
def cexCtx : RoutingContext := RoutingContext.direct (some "1000")

/-- A concrete burst: four agent messages, consecutive gaps 1, 1, 1, each
gap below timeout_seconds = 2, then a final quiet wait. -/
def cexTrace : List Event :=
  Event.add (cexMsg "M1") ::
    burstTail [(1, cexMsg "M2"), (1, cexMsg "M3"), (1, cexMsg "M4")] ++
      [Event.sleep 2]

/-- A concrete collector holding one pending agent message. -/
def sW : RollingMessageCollector :=
  (RollingMessageCollector.init 2 10 (fun _ => true)).run
    [Event.add (cexMsg "A1")]

/-! ### Basic step lemmas -/

theorem run_nil (s : RollingMessageCollector) : s.run [] = s := rfl

theorem run_cons (s : RollingMessageCollector) (e : Event) (es : List Event) :
    s.run (e :: es) = (s.step e).run es := rfl

theorem run_append (s : RollingMessageCollector) (l1 l2 : List Event) :
    s.run (l1 ++ l2) = (s.run l1).run l2 := by
  simp [RollingMessageCollector.run, List.foldl_append]

theorem add_message_human_state (s : RollingMessageCollector) (m : Message)
    (hm : isHuman m = true) :
    (s.add_message m).state (routingContext m) = CtxState.idle := by
  simp [RollingMessageCollector.add_message, hm]

theorem add_message_human_delivered (s : RollingMessageCollector) (m : Message)
    (hm : isHuman m = true) :
    (s.add_message m).delivered (routingContext m) =
      s.delivered (routingContext m) ++
        [((s.state (routingContext m)).pending ++ [m],
          s.cbOk ((s.state (routingContext m)).pending ++ [m]))] := by
  simp [RollingMessageCollector.add_message, hm]

theorem add_message_agent_state (s : RollingMessageCollector) (m : Message)
    (hm : isHuman m = false) :
    (s.add_message m).state (routingContext m) =
      { pending := (s.state (routingContext m)).pending ++ [m],
        rollingDeadline := some (s.now + s.timeout_seconds),
        absDeadline :=
          if (s.state (routingContext m)).pending.isEmpty then
            some (s.now + s.max_batch_wait)
          else (s.state (routingContext m)).absDeadline } := by
  simp [RollingMessageCollector.add_message, hm]

theorem add_message_agent_delivered (s : RollingMessageCollector)
    (m : Message) (hm : isHuman m = false) :
    (s.add_message m).delivered = s.delivered := by
  simp [RollingMessageCollector.add_message, hm]

theorem add_message_other_state (s : RollingMessageCollector) (m : Message)
    (c : RoutingContext) (hc : c ≠ routingContext m) :
    (s.add_message m).state c = s.state c := by
  by_cases hm : isHuman m <;>
    simp [RollingMessageCollector.add_message, hm, hc]

theorem add_message_other_delivered (s : RollingMessageCollector)
    (m : Message) (c : RoutingContext) (hc : c ≠ routingContext m) :
    (s.add_message m).delivered c = s.delivered c := by
  by_cases hm : isHuman m <;>
    simp [RollingMessageCollector.add_message, hm, hc]

theorem add_message_now (s : RollingMessageCollector) (m : Message) :
    (s.add_message m).now = s.now := by
  by_cases hm : isHuman m <;> simp [RollingMessageCollector.add_message, hm]

theorem add_message_config (s : RollingMessageCollector) (m : Message) :
    (s.add_message m).timeout_seconds = s.timeout_seconds ∧
    (s.add_message m).max_batch_wait = s.max_batch_wait ∧
    (s.add_message m).cbOk = s.cbOk := by
  by_cases hm : isHuman m <;> simp [RollingMessageCollector.add_message, hm]

theorem elapse_now (s : RollingMessageCollector) (d : Nat) :
    (s.elapse d).now = s.now + d := rfl

theorem elapse_config (s : RollingMessageCollector) (d : Nat) :
    (s.elapse d).timeout_seconds = s.timeout_seconds ∧
    (s.elapse d).max_batch_wait = s.max_batch_wait ∧
    (s.elapse d).cbOk = s.cbOk := by
  simp [RollingMessageCollector.elapse]

theorem elapse_quiet_state (s : RollingMessageCollector) (d : Nat)
    (c : RoutingContext) (h : deadlineDue (s.state c) (s.now + d) = false) :
    (s.elapse d).state c = s.state c := by
  simp [RollingMessageCollector.elapse, h]

theorem elapse_quiet_delivered (s : RollingMessageCollector) (d : Nat)
    (c : RoutingContext) (h : deadlineDue (s.state c) (s.now + d) = false) :
    (s.elapse d).delivered c = s.delivered c := by
  simp [RollingMessageCollector.elapse, h]

theorem elapse_fire_state (s : RollingMessageCollector) (d : Nat)
    (c : RoutingContext) (h : deadlineDue (s.state c) (s.now + d) = true) :
    (s.elapse d).state c = CtxState.idle := by
  simp [RollingMessageCollector.elapse, h]

theorem elapse_fire_delivered (s : RollingMessageCollector) (d : Nat)
    (c : RoutingContext) (h : deadlineDue (s.state c) (s.now + d) = true) :
    (s.elapse d).delivered c =
      s.delivered c ++
        [((s.state c).pending, s.cbOk ((s.state c).pending))] := by
  simp [RollingMessageCollector.elapse, h]

theorem step_config (s : RollingMessageCollector) (e : Event) :
    (s.step e).timeout_seconds = s.timeout_seconds ∧
    (s.step e).max_batch_wait = s.max_batch_wait ∧
    (s.step e).cbOk = s.cbOk := by
  cases e with
  | add m => exact add_message_config s m
  | sleep d => exact elapse_config s d

theorem run_config (es : List Event) (s : RollingMessageCollector) :
    (s.run es).timeout_seconds = s.timeout_seconds ∧
    (s.run es).max_batch_wait = s.max_batch_wait ∧
    (s.run es).cbOk = s.cbOk := by
  induction es generalizing s with
  | nil => exact ⟨rfl, rfl, rfl⟩
  | cons e rest ih =>
    rw [run_cons]
    obtain ⟨h1, h2, h3⟩ := ih (s.step e)
    obtain ⟨g1, g2, g3⟩ := step_config s e
    exact ⟨h1.trans g1, h2.trans g2, h3.trans g3⟩

theorem deadlineDue_idle (t : Nat) : deadlineDue CtxState.idle t = false := rfl

theorem deadlineDue_some (p : List Message) (r A t : Nat) :
    deadlineDue ⟨p, some r, some A⟩ t =
      (decide (r ≤ t) || decide (A ≤ t)) := rfl

/-! ### Conservation: every message added is either pending or delivered,
exactly once, in call order -/

theorem step_conservation (s : RollingMessageCollector) (e : Event)
    (c : RoutingContext) :
    deliveredJoin (s.step e) c ++ pendingOf (s.step e) c =
      deliveredJoin s c ++ pendingOf s c ++ eventAdds c e := by
  cases e with
  | add m =>
    show deliveredJoin (s.add_message m) c ++ pendingOf (s.add_message m) c = _
    by_cases hc : c = routingContext m
    · subst hc
      by_cases hm : isHuman m
      · simp [deliveredJoin, pendingOf, eventAdds,
          add_message_human_delivered s m hm, add_message_human_state s m hm,
          CtxState.idle, List.append_assoc]
      · rw [Bool.not_eq_true] at hm
        simp [deliveredJoin, pendingOf, eventAdds,
          add_message_agent_delivered s m hm, add_message_agent_state s m hm,
          List.append_assoc]
    · have hc2 : routingContext m ≠ c := fun h => hc h.symm
      simp [deliveredJoin, pendingOf, eventAdds,
        add_message_other_delivered s m c hc,
        add_message_other_state s m c hc, hc2]
  | sleep d =>
    show deliveredJoin (s.elapse d) c ++ pendingOf (s.elapse d) c = _
    by_cases hd : deadlineDue (s.state c) (s.now + d)
    · simp [deliveredJoin, pendingOf, eventAdds,
        elapse_fire_delivered s d c hd, elapse_fire_state s d c hd,
        CtxState.idle]
    · rw [Bool.not_eq_true] at hd
      simp [deliveredJoin, pendingOf, eventAdds,
        elapse_quiet_delivered s d c hd, elapse_quiet_state s d c hd]

theorem run_conservation (es : List Event) (s : RollingMessageCollector)
    (c : RoutingContext) :
    deliveredJoin (s.run es) c ++ pendingOf (s.run es) c =
      deliveredJoin s c ++ pendingOf s c ++ addsTo c es := by
  induction es generalizing s with
  | nil => simp [run_nil, addsTo]
  | cons e rest ih =>
    rw [run_cons, ih (s.step e), step_conservation s e c]
    simp [addsTo, List.append_assoc]

/-! ### Well-formedness invariant -/

theorem goodState_init (t w : Nat) (cb : List Message → Bool) :
    GoodState (RollingMessageCollector.init t w cb) := by
  constructor
  · intro c _
    rfl
  · intro c b hb
    have h0 : (RollingMessageCollector.init t w cb).delivered c = [] := rfl
    rw [h0] at hb
    cases hb

theorem goodState_step (s : RollingMessageCollector) (e : Event)
    (h : GoodState s) : GoodState (s.step e) := by
  obtain ⟨h1, h2⟩ := h
  cases e with
  | add m =>
    show GoodState (s.add_message m)
    by_cases hm : isHuman m
    · constructor
      · intro c
        by_cases hc : c = routingContext m
        · subst hc
          rw [add_message_human_state s m hm]
          intro _
          rfl
        · rw [add_message_other_state s m c hc]
          exact h1 c
      · intro c b hb
        by_cases hc : c = routingContext m
        · subst hc
          rw [add_message_human_delivered s m hm] at hb
          rcases List.mem_append.mp hb with hb | hb
          · exact h2 _ b hb
          · simp at hb
            subst hb
            simp
        · rw [add_message_other_delivered s m c hc] at hb
          exact h2 c b hb
    · rw [Bool.not_eq_true] at hm
      constructor
      · intro c
        by_cases hc : c = routingContext m
        · subst hc
          rw [add_message_agent_state s m hm]
          intro hcontra
          simp at hcontra
        · rw [add_message_other_state s m c hc]
          exact h1 c
      · intro c b hb
        rw [add_message_agent_delivered s m hm] at hb
        exact h2 c b hb
  | sleep d =>
    show GoodState (s.elapse d)
    constructor
    · intro c
      by_cases hd : deadlineDue (s.state c) (s.now + d)
      · rw [elapse_fire_state s d c hd]
        intro _
        rfl
      · rw [Bool.not_eq_true] at hd
        rw [elapse_quiet_state s d c hd]
        exact h1 c
    · intro c b hb
      by_cases hd : deadlineDue (s.state c) (s.now + d)
      · rw [elapse_fire_delivered s d c hd] at hb
        rcases List.mem_append.mp hb with hb | hb
        · exact h2 c b hb
        · simp at hb
          subst hb
          intro hcontra
          have hp : (s.state c).pending = [] := hcontra
          have hidle : s.state c = CtxState.idle := h1 c hp
          rw [hidle, deadlineDue_idle] at hd
          exact Bool.false_ne_true hd
      · rw [Bool.not_eq_true] at hd
        rw [elapse_quiet_delivered s d c hd] at hb
        exact h2 c b hb

theorem goodState_run (es : List Event) (s : RollingMessageCollector)
    (h : GoodState s) : GoodState (s.run es) := by
  induction es generalizing s with
  | nil => exact h
  | cons e rest ih =>
    rw [run_cons]
    exact ih (s.step e) (goodState_step s e h)

/-! ### Delivery logs only grow -/

theorem step_delivered_mono (s : RollingMessageCollector) (e : Event)
    (c : RoutingContext) :
    ∃ tl, (s.step e).delivered c = s.delivered c ++ tl := by
  cases e with
  | add m =>
    show ∃ tl, (s.add_message m).delivered c = s.delivered c ++ tl
    by_cases hc : c = routingContext m
    · subst hc
      by_cases hm : isHuman m
      · exact ⟨_, add_message_human_delivered s m hm⟩
      · rw [Bool.not_eq_true] at hm
        exact ⟨[], by rw [add_message_agent_delivered s m hm,
          List.append_nil]⟩
    · exact ⟨[], by
        rw [add_message_other_delivered s m c hc, List.append_nil]⟩
  | sleep d =>
    show ∃ tl, (s.elapse d).delivered c = s.delivered c ++ tl
    by_cases hd : deadlineDue (s.state c) (s.now + d)
    · exact ⟨_, elapse_fire_delivered s d c hd⟩
    · rw [Bool.not_eq_true] at hd
      exact ⟨[], by
        rw [elapse_quiet_delivered s d c hd, List.append_nil]⟩

theorem run_delivered_mono (es : List Event) (s : RollingMessageCollector)
    (c : RoutingContext) :
    ∃ tl, (s.run es).delivered c = s.delivered c ++ tl := by
  induction es generalizing s with
  | nil => exact ⟨[], by rw [run_nil, List.append_nil]⟩
  | cons e rest ih =>
    rw [run_cons]
    obtain ⟨tl1, h1⟩ := step_delivered_mono s e c
    obtain ⟨tl2, h2⟩ := ih (s.step e)
    exact ⟨tl1 ++ tl2, by rw [h2, h1, List.append_assoc]⟩

/-! ### Accumulation along a burst: gaps below the rolling window and an
absolute deadline still ahead leave the batch growing, nothing delivered -/

theorem burstTail_run (rest : List (Nat × Message)) :
    ∀ (s : RollingMessageCollector) (c : RoutingContext) (p : List Message)
      (A : Nat),
    s.state c = ⟨p, some (s.now + s.timeout_seconds), some A⟩ →
    p ≠ [] →
    (∀ gm ∈ rest, routingContext gm.2 = c ∧ isHuman gm.2 = false ∧
      gm.1 < s.timeout_seconds) →
    s.now + sumGaps rest < A →
    (s.run (burstTail rest)).state c =
        ⟨p ++ rest.map Prod.snd,
          some ((s.run (burstTail rest)).now + s.timeout_seconds), some A⟩ ∧
    (s.run (burstTail rest)).delivered c = s.delivered c ∧
    (s.run (burstTail rest)).now = s.now + sumGaps rest ∧
    (s.run (burstTail rest)).timeout_seconds = s.timeout_seconds ∧
    (s.run (burstTail rest)).max_batch_wait = s.max_batch_wait ∧
    (s.run (burstTail rest)).cbOk = s.cbOk := by
  induction rest with
  | nil =>
    intro s c p A hst hp hrest hA
    refine ⟨?_, rfl, ?_, rfl, rfl, rfl⟩
    · simpa [burstTail, run_nil, sumGaps] using hst
    · simp [burstTail, run_nil, sumGaps]
  | cons gm rest' ih =>
    obtain ⟨g, m⟩ := gm
    intro s c p A hst hp hrest hA
    obtain ⟨hcm, hm, hg⟩ := hrest (g, m) (List.mem_cons_self _ _)
    have htail : ∀ x ∈ rest', routingContext x.2 = c ∧ isHuman x.2 = false ∧
        x.1 < s.timeout_seconds :=
      fun x hx => hrest x (List.mem_cons_of_mem _ hx)
    have hsum : sumGaps ((g, m) :: rest') = g + sumGaps rest' := rfl
    rw [hsum] at hA
    have hdue : deadlineDue (s.state c) (s.now + g) = false := by
      rw [hst, deadlineDue_some]
      have h1 : ¬(s.now + s.timeout_seconds ≤ s.now + g) := by omega
      have h2 : ¬(A ≤ s.now + g) := by omega
      simp [h1, h2]
    have hrun : s.run (burstTail ((g, m) :: rest')) =
        ((s.elapse g).add_message m).run (burstTail rest') := rfl
    have hst1 : (s.elapse g).state c =
        ⟨p, some (s.now + s.timeout_seconds), some A⟩ := by
      rw [elapse_quiet_state s g c hdue, hst]
    have hdel1 : (s.elapse g).delivered c = s.delivered c :=
      elapse_quiet_delivered s g c hdue
    have hnow1 : (s.elapse g).now = s.now + g := rfl
    obtain ⟨ht1, hw1, hb1⟩ := elapse_config s g
    have hpne : p.isEmpty = false := by
      cases p with
      | nil => exact absurd rfl hp
      | cons a as => rfl
    obtain ⟨ht2, hw2, hb2⟩ := add_message_config (s.elapse g) m
    have hnow2 : ((s.elapse g).add_message m).now = s.now + g := by
      rw [add_message_now, hnow1]
    have hst2 : ((s.elapse g).add_message m).state c =
        ⟨p ++ [m], some (((s.elapse g).add_message m).now +
          ((s.elapse g).add_message m).timeout_seconds), some A⟩ := by
      have h3 := add_message_agent_state (s.elapse g) m hm
      rw [hcm] at h3
      rw [h3, hst1]
      simp only [hpne]
      rw [hnow2, ht2, ht1, hnow1]
      simp
    have hdel2 : ((s.elapse g).add_message m).delivered c = s.delivered c := by
      rw [add_message_agent_delivered (s.elapse g) m hm, hdel1]
    have htail2 : ∀ x ∈ rest', routingContext x.2 = c ∧ isHuman x.2 = false ∧
        x.1 < ((s.elapse g).add_message m).timeout_seconds := by
      rw [ht2, ht1]
      exact htail
    have hA2 : ((s.elapse g).add_message m).now + sumGaps rest' < A := by
      rw [hnow2]
      omega
    obtain ⟨ih1, ih2, ih3, ih4, ih5, ih6⟩ :=
      ih ((s.elapse g).add_message m) c (p ++ [m]) A hst2 (by simp) htail2 hA2
    rw [hrun]
    refine ⟨?_, ?_, ?_, ?_, ?_, ?_⟩
    · rw [ih1, ht2, ht1]
      simp [List.append_assoc]
    · rw [ih2, hdel2]
    · rw [ih3, hnow2, hsum]
      omega
    · rw [ih4, ht2, ht1]
    · rw [ih5, hw2, hw1]
    · rw [ih6, hb2, hb1]

/-! ### Callback outcomes do not influence the collector -/

theorem sim_step (s1 s2 : RollingMessageCollector) (e : Event)
    (h : Sim s1 s2) : Sim (s1.step e) (s2.step e) := by
  obtain ⟨ht, hw, hn, hs, hd⟩ := h
  cases e with
  | add m =>
    show Sim (s1.add_message m) (s2.add_message m)
    by_cases hm : isHuman m
    · refine ⟨?_, ?_, ?_, ?_, ?_⟩
      · rw [(add_message_config s1 m).1, (add_message_config s2 m).1, ht]
      · rw [(add_message_config s1 m).2.1, (add_message_config s2 m).2.1, hw]
      · rw [add_message_now, add_message_now, hn]
      · funext c
        by_cases hc : c = routingContext m
        · subst hc
          rw [add_message_human_state s1 m hm, add_message_human_state s2 m hm]
        · rw [add_message_other_state s1 m c hc,
            add_message_other_state s2 m c hc, hs]
      · intro c
        by_cases hc : c = routingContext m
        · subst hc
          unfold deliveredBatches
          rw [add_message_human_delivered s1 m hm,
            add_message_human_delivered s2 m hm, hs]
          simp only [List.map_append, List.map_cons, List.map_nil]
          rw [show ((s1.delivered (routingContext m)).map Prod.fst) =
            deliveredBatches s1 (routingContext m) from rfl,
            show ((s2.delivered (routingContext m)).map Prod.fst) =
            deliveredBatches s2 (routingContext m) from rfl, hd]
        · unfold deliveredBatches
          rw [add_message_other_delivered s1 m c hc,
            add_message_other_delivered s2 m c hc]
          exact hd c
    · rw [Bool.not_eq_true] at hm
      refine ⟨?_, ?_, ?_, ?_, ?_⟩
      · rw [(add_message_config s1 m).1, (add_message_config s2 m).1, ht]
      · rw [(add_message_config s1 m).2.1, (add_message_config s2 m).2.1, hw]
      · rw [add_message_now, add_message_now, hn]
      · funext c
        by_cases hc : c = routingContext m
        · subst hc
          rw [add_message_agent_state s1 m hm, add_message_agent_state s2 m hm,
            hs, hn, ht, hw]
        · rw [add_message_other_state s1 m c hc,
            add_message_other_state s2 m c hc, hs]
      · intro c
        unfold deliveredBatches
        rw [add_message_agent_delivered s1 m hm,
          add_message_agent_delivered s2 m hm]
        exact hd c
  | sleep d =>
    show Sim (s1.elapse d) (s2.elapse d)
    refine ⟨?_, ?_, ?_, ?_, ?_⟩
    · rw [(elapse_config s1 d).1, (elapse_config s2 d).1, ht]
    · rw [(elapse_config s1 d).2.1, (elapse_config s2 d).2.1, hw]
    · rw [elapse_now, elapse_now, hn]
    · funext c
      by_cases hdd : deadlineDue (s1.state c) (s1.now + d)
      · have hdd2 : deadlineDue (s2.state c) (s2.now + d) = true := by
          rw [← hs, ← hn]
          exact hdd
        rw [elapse_fire_state s1 d c hdd, elapse_fire_state s2 d c hdd2]
      · rw [Bool.not_eq_true] at hdd
        have hdd2 : deadlineDue (s2.state c) (s2.now + d) = false := by
          rw [← hs, ← hn]
          exact hdd
        rw [elapse_quiet_state s1 d c hdd, elapse_quiet_state s2 d c hdd2, hs]
    · intro c
      unfold deliveredBatches
      by_cases hdd : deadlineDue (s1.state c) (s1.now + d)
      · have hdd2 : deadlineDue (s2.state c) (s2.now + d) = true := by
          rw [← hs, ← hn]
          exact hdd
        rw [elapse_fire_delivered s1 d c hdd, elapse_fire_delivered s2 d c hdd2,
          hs]
        simp only [List.map_append, List.map_cons, List.map_nil]
        rw [show ((s1.delivered c).map Prod.fst) =
          deliveredBatches s1 c from rfl,
          show ((s2.delivered c).map Prod.fst) =
          deliveredBatches s2 c from rfl, hd]
      · rw [Bool.not_eq_true] at hdd
        have hdd2 : deadlineDue (s2.state c) (s2.now + d) = false := by
          rw [← hs, ← hn]
          exact hdd
        rw [elapse_quiet_delivered s1 d c hdd,
          elapse_quiet_delivered s2 d c hdd2]
        exact hd c

theorem sim_run (es : List Event) (s1 s2 : RollingMessageCollector)
    (h : Sim s1 s2) : Sim (s1.run es) (s2.run es) := by
  induction es generalizing s1 s2 with
  | nil => exact h
  | cons e rest ih =>
    rw [run_cons, run_cons]
    exact ih (s1.step e) (s2.step e) (sim_step s1 s2 e h)

/-! ### The MessagingMixin path seen as a collector trace -/

theorem mixinRun_eq_run (handled : Message → Bool) (es : List MEvent) :
    ∀ s : RollingMessageCollector,
    mixinRun handled s es = s.run (es.filterMap (toEvent handled)) := by
  induction es with
  | nil =>
    intro s
    rfl
  | cons e rest ih =>
    intro s
    cases e with
    | recv m =>
      by_cases h : handled m
      · have h1 : mixinRun handled s (MEvent.recv m :: rest) =
            mixinRun handled s rest := by
          simp [mixinRun, mixinStep, add_message_to_buffer, h]
        have h2 : (MEvent.recv m :: rest).filterMap (toEvent handled) =
            rest.filterMap (toEvent handled) := by
          simp [List.filterMap_cons, toEvent, h]
        rw [h1, h2, ih s]
      · have h1 : mixinRun handled s (MEvent.recv m :: rest) =
            mixinRun handled (s.add_message m) rest := by
          simp [mixinRun, mixinStep, add_message_to_buffer, h]
        have h2 : (MEvent.recv m :: rest).filterMap (toEvent handled) =
            Event.add m :: rest.filterMap (toEvent handled) := by
          simp [List.filterMap_cons, toEvent, h]
        rw [h1, h2, ih (s.add_message m), run_cons]
        rfl
    | sleep d =>
      have h1 : mixinRun handled s (MEvent.sleep d :: rest) =
          mixinRun handled (s.elapse d) rest := rfl
      have h2 : (MEvent.sleep d :: rest).filterMap (toEvent handled) =
          Event.sleep d :: rest.filterMap (toEvent handled) := by
        simp [List.filterMap_cons, toEvent]
      rw [h1, h2, ih (s.elapse d), run_cons]
      rfl

theorem mixinAddsTo_eq (handled : Message → Bool) (c : RoutingContext)
    (es : List MEvent) :
    mixinAddsTo handled c es = addsTo c (es.filterMap (toEvent handled)) := by
  induction es with
  | nil => rfl
  | cons e rest ih =>
    cases e with
    | recv m =>
      by_cases h : handled m
      · have h2 : (MEvent.recv m :: rest).filterMap (toEvent handled) =
            rest.filterMap (toEvent handled) := by
          simp [List.filterMap_cons, toEvent, h]
        rw [h2]
        show mevAdds handled c (MEvent.recv m) ++ mixinAddsTo handled c rest = _
        rw [ih]
        simp [mevAdds, h]
      · have h2 : (MEvent.recv m :: rest).filterMap (toEvent handled) =
            Event.add m :: rest.filterMap (toEvent handled) := by
          simp [List.filterMap_cons, toEvent, h]
        rw [h2]
        show mevAdds handled c (MEvent.recv m) ++ mixinAddsTo handled c rest = _
        show _ = eventAdds c (Event.add m) ++
          addsTo c (rest.filterMap (toEvent handled))
        rw [ih]
        have h3 : handled m = false := by
          rw [Bool.not_eq_true] at h
          exact h
        simp [mevAdds, eventAdds, h3]
    | sleep d =>
      have h2 : (MEvent.sleep d :: rest).filterMap (toEvent handled) =
          Event.sleep d :: rest.filterMap (toEvent handled) := by
        simp [List.filterMap_cons, toEvent]
      rw [h2]
      show mevAdds handled c (MEvent.sleep d) ++ mixinAddsTo handled c rest = _
      show _ = eventAdds c (Event.sleep d) ++
        addsTo c (rest.filterMap (toEvent handled))
      rw [ih]
      simp [mevAdds, eventAdds]

/-! ### Claims -/

/-- Claim C2: in any collector state in which a context has pending
messages, adding a human-originated message delivers the entire pending
batch for that context within the add_message call itself — no time passes,
so both the rolling and the absolute timer are bypassed — with the human
message as the last element of the delivered batch, and the context returns
to IDLE. -/
theorem claim_C2 (s : RollingMessageCollector) (m : Message)
    (c : RoutingContext) (p : List Message)
    (hc : routingContext m = c) (hm : isHuman m = true)
    (hp : (s.state c).pending = p) (hne : p ≠ []) :
    (s.add_message m).delivered c =
      s.delivered c ++ [(p ++ [m], s.cbOk (p ++ [m]))] ∧
    (s.add_message m).state c = CtxState.idle ∧
    (s.add_message m).now = s.now ∧
    (p ++ [m]).getLast? = some m := by
  subst hc
  refine ⟨?_, add_message_human_state s m hm, add_message_now s m, ?_⟩
  · rw [← hp]
    exact add_message_human_delivered s m hm
  · simp

/-- Claim C5: for every trace of add_message calls and time passage, and
every routing context, the messages delivered for that context followed by
the messages still pending are exactly the messages added for that context,
in call order — so each message is delivered exactly once (it either
belongs to a flushed batch or is pending in the next accumulating cycle,
never both and never neither) — and the pending buffer is empty exactly
when the context is IDLE (flush clears it atomically). -/
theorem claim_C5 (t w : Nat) (cb : List Message → Bool) (es : List Event)
    (c : RoutingContext) :
    deliveredJoin ((RollingMessageCollector.init t w cb).run es) c ++
        pendingOf ((RollingMessageCollector.init t w cb).run es) c =
      addsTo c es ∧
    (pendingOf ((RollingMessageCollector.init t w cb).run es) c = [] ↔
      ((RollingMessageCollector.init t w cb).run es).state c =
        CtxState.idle) := by
  constructor
  · have h := run_conservation es (RollingMessageCollector.init t w cb) c
    simpa [deliveredJoin, pendingOf, RollingMessageCollector.init,
      CtxState.idle] using h
  · constructor
    · intro hp
      exact (goodState_run es _ (goodState_init t w cb)).1 c hp
    · intro hs
      rw [pendingOf, hs]
      rfl

/-- Claim C6: a delivery-callback failure does not corrupt collector state:
two collectors differing only in their callback's outcomes (one whose
callback raises where the other succeeds) have, after any trace,
identical per-context states (so a failed delivery still clears the batch
and returns the context to IDLE), identical clocks, and identical delivered
batch sequences (each batch delivered at most once, with no automatic
retry of a failed batch). -/
theorem claim_C6 (t w : Nat) (cb cb2 : List Message → Bool)
    (es : List Event) (c : RoutingContext) :
    ((RollingMessageCollector.init t w cb).run es).state =
      ((RollingMessageCollector.init t w cb2).run es).state ∧
    ((RollingMessageCollector.init t w cb).run es).now =
      ((RollingMessageCollector.init t w cb2).run es).now ∧
    deliveredBatches ((RollingMessageCollector.init t w cb).run es) c =
      deliveredBatches ((RollingMessageCollector.init t w cb2).run es) c := by
  have h0 : Sim (RollingMessageCollector.init t w cb)
      (RollingMessageCollector.init t w cb2) :=
    ⟨rfl, rfl, rfl, rfl, fun _ => rfl⟩
  have h := sim_run es _ _ h0
  exact ⟨h.2.2.2.1, h.2.2.1, h.2.2.2.2 c⟩

/-- Claim C8: on the MessagingMixin inbound path, every message is owned by
exactly one of the meeting manager and the collector: a message whose
meeting-manager buffering hook returns true leaves the collector untouched
and never appears in any delivered batch, while every other message is
forwarded to collector.add_message; the messages delivered for a context
plus those still pending are exactly the unclaimed messages received for
that context, in order — so no message is ever delivered twice. -/
theorem claim_C8 (handled : Message → Bool) (t w : Nat)
    (cb : List Message → Bool) (es : List MEvent) (c : RoutingContext)
    (m : Message) :
    deliveredJoin
        (mixinRun handled (RollingMessageCollector.init t w cb) es) c ++
      pendingOf
        (mixinRun handled (RollingMessageCollector.init t w cb) es) c =
      mixinAddsTo handled c es ∧
    add_message_to_buffer handled
        (mixinRun handled (RollingMessageCollector.init t w cb) es) m =
      (if handled m then
        mixinRun handled (RollingMessageCollector.init t w cb) es
       else
        (mixinRun handled
          (RollingMessageCollector.init t w cb) es).add_message m) := by
  constructor
  · rw [mixinRun_eq_run, mixinAddsTo_eq]
    have h := run_conservation (es.filterMap (toEvent handled))
      (RollingMessageCollector.init t w cb) c
    simpa [deliveredJoin, pendingOf, RollingMessageCollector.init,
      CtxState.idle] using h
  · rfl

/-- Claim C9: a message takes the immediate-flush path exactly when its
sender_id equals the sentinel string "human": for every state and message,
add_message grows the delivered log of the message's routing context by one
batch if sender_id = "human" and leaves it unchanged otherwise — regardless
of sender_klass (a sender_klass of "HumanAgent" alone does not trigger it)
and regardless of message_type (DIRECT and MEETING_BROADCAST alike). -/
theorem claim_C9 (s : RollingMessageCollector) (m : Message) :
    (isHuman m = true ↔ m.sender_id = "human") ∧
    ((s.add_message m).delivered (routingContext m)).length =
      (s.delivered (routingContext m)).length +
        (if m.sender_id = "human" then 1 else 0) := by
  constructor
  · simp [isHuman]
  · by_cases h : m.sender_id = "human"
    · have hm : isHuman m = true := by simp [isHuman, h]
      rw [add_message_human_delivered s m hm]
      simp [h]
    · have hm : isHuman m = false := by simp [isHuman, h]
      rw [add_message_agent_delivered s m hm]
      simp [h]

/-- Claim C4: a lone non-human message added to an idle context, with no
further arrivals, is not delivered at any observation point strictly before
timeout_seconds has elapsed (its batch is still pending), and is delivered
as a singleton batch at any observation point from timeout_seconds on —
assuming the sensible configuration in which the absolute ceiling
max_batch_wait is at least the rolling window timeout_seconds. -/
theorem claim_C4 (t w : Nat) (cb : List Message → Bool) (m : Message)
    (c : RoutingContext) (u : Nat)
    (hc : routingContext m = c) (hm : isHuman m = false) (htw : t ≤ w) :
    (u < t →
      ((RollingMessageCollector.init t w cb).run
          [Event.add m, Event.sleep u]).delivered c = [] ∧
      pendingOf ((RollingMessageCollector.init t w cb).run
          [Event.add m, Event.sleep u]) c = [m]) ∧
    (t ≤ u →
      ((RollingMessageCollector.init t w cb).run
          [Event.add m, Event.sleep u]).delivered c = [([m], cb [m])] ∧
      ((RollingMessageCollector.init t w cb).run
          [Event.add m, Event.sleep u]).state c = CtxState.idle) := by
  subst hc
  have hnow1 : ((RollingMessageCollector.init t w cb).add_message m).now = 0 := by
    rw [add_message_now]
    rfl
  have h1 : ((RollingMessageCollector.init t w cb).add_message m).state
      (routingContext m) = ⟨[m], some t, some w⟩ := by
    rw [add_message_agent_state _ m hm]
    simp [RollingMessageCollector.init, CtxState.idle]
  have hdel1 : ((RollingMessageCollector.init t w cb).add_message m).delivered
      (routingContext m) = [] := by
    rw [add_message_agent_delivered _ m hm]
    rfl
  have hcb1 : ((RollingMessageCollector.init t w cb).add_message m).cbOk =
      cb := by
    rw [(add_message_config _ m).2.2]
    rfl
  have hrun : (RollingMessageCollector.init t w cb).run
      [Event.add m, Event.sleep u] =
      ((RollingMessageCollector.init t w cb).add_message m).elapse u := rfl
  constructor
  · intro hu
    have hdue : deadlineDue
        (((RollingMessageCollector.init t w cb).add_message m).state
          (routingContext m))
        (((RollingMessageCollector.init t w cb).add_message m).now + u) =
        false := by
      rw [h1, hnow1, deadlineDue_some]
      simp only [Bool.or_eq_false_iff, decide_eq_false_iff_not]
      omega
    constructor
    · rw [hrun, elapse_quiet_delivered _ u _ hdue, hdel1]
    · rw [pendingOf, hrun, elapse_quiet_state _ u _ hdue, h1]
  · intro hu
    have hdue : deadlineDue
        (((RollingMessageCollector.init t w cb).add_message m).state
          (routingContext m))
        (((RollingMessageCollector.init t w cb).add_message m).now + u) =
        true := by
      rw [h1, hnow1, deadlineDue_some]
      simp only [Bool.or_eq_true_iff, decide_eq_true_eq]
      omega
    constructor
    · rw [hrun, elapse_fire_delivered _ u _ hdue, hdel1, h1, hcb1]
      simp
    · rw [hrun, elapse_fire_state _ u _ hdue]

theorem burstTail_append (l1 l2 : List (Nat × Message)) :
    burstTail (l1 ++ l2) = burstTail l1 ++ burstTail l2 := by
  induction l1 with
  | nil => rfl
  | cons gm rest ih =>
    obtain ⟨g, m⟩ := gm
    simp [burstTail, ih]

/-- Claim C1, amended: for every burst of non-human messages added to the
same routing context, each arriving less than timeout_seconds after the
previous one AND the last arriving strictly less than max_batch_wait after
the first (so the absolute ceiling does not cut the burst), once a quiet
period of at least timeout_seconds follows, the delivery callback is
invoked exactly once for the burst, with a single batch containing exactly
those messages in add_message call order, and the context returns to
IDLE. -/
theorem claim_C1_amended (t w wait : Nat) (cb : List Message → Bool)
    (m0 : Message) (rest : List (Nat × Message)) (c : RoutingContext)
    (h0c : routingContext m0 = c) (h0h : isHuman m0 = false)
    (hrest : ∀ gm ∈ rest, routingContext gm.2 = c ∧ isHuman gm.2 = false ∧
      gm.1 < t)
    (hspan : sumGaps rest < w) (hwait : t ≤ wait) :
    ((RollingMessageCollector.init t w cb).run
        (Event.add m0 :: burstTail rest ++ [Event.sleep wait])).delivered c =
      [(m0 :: rest.map Prod.snd, cb (m0 :: rest.map Prod.snd))] ∧
    ((RollingMessageCollector.init t w cb).run
        (Event.add m0 :: burstTail rest ++ [Event.sleep wait])).state c =
      CtxState.idle := by
  subst h0c
  have hcfg1 := add_message_config (RollingMessageCollector.init t w cb) m0
  have hnow1 : ((RollingMessageCollector.init t w cb).add_message m0).now =
      0 := by
    rw [add_message_now]
    rfl
  have ht1 : ((RollingMessageCollector.init t w cb).add_message
      m0).timeout_seconds = t := hcfg1.1
  have h1 : ((RollingMessageCollector.init t w cb).add_message m0).state
      (routingContext m0) =
      ⟨[m0],
        some (((RollingMessageCollector.init t w cb).add_message m0).now +
          ((RollingMessageCollector.init t w cb).add_message
            m0).timeout_seconds),
        some w⟩ := by
    rw [add_message_agent_state _ m0 h0h, hnow1, ht1]
    simp [RollingMessageCollector.init, CtxState.idle]
  have hdel1 : ((RollingMessageCollector.init t w cb).add_message
      m0).delivered (routingContext m0) = [] := by
    rw [add_message_agent_delivered _ m0 h0h]
    rfl
  have hcb1 : ((RollingMessageCollector.init t w cb).add_message m0).cbOk =
      cb := hcfg1.2.2
  have hrest2 : ∀ gm ∈ rest, routingContext gm.2 = routingContext m0 ∧
      isHuman gm.2 = false ∧
      gm.1 < ((RollingMessageCollector.init t w cb).add_message
        m0).timeout_seconds := by
    rw [ht1]
    exact hrest
  have hA : ((RollingMessageCollector.init t w cb).add_message m0).now +
      sumGaps rest < w := by
    rw [hnow1]
    omega
  obtain ⟨ih1, ih2, ih3, ih4, ih5, ih6⟩ :=
    burstTail_run rest ((RollingMessageCollector.init t w cb).add_message m0)
      (routingContext m0) [m0] w h1 (by simp) hrest2 hA
  rw [ht1] at ih1
  have hdue : deadlineDue
      ((((RollingMessageCollector.init t w cb).add_message m0).run
        (burstTail rest)).state (routingContext m0))
      ((((RollingMessageCollector.init t w cb).add_message m0).run
        (burstTail rest)).now + wait) = true := by
    rw [ih1, deadlineDue_some]
    have a1 : (((RollingMessageCollector.init t w cb).add_message m0).run
        (burstTail rest)).now + t ≤
        (((RollingMessageCollector.init t w cb).add_message m0).run
          (burstTail rest)).now + wait := by
      omega
    simp [a1]
  have hrun : (RollingMessageCollector.init t w cb).run
      (Event.add m0 :: burstTail rest ++ [Event.sleep wait]) =
      (((RollingMessageCollector.init t w cb).add_message m0).run
        (burstTail rest)).elapse wait := by
    rw [show (Event.add m0 :: burstTail rest ++ [Event.sleep wait] :
        List Event) =
      (Event.add m0 :: burstTail rest) ++ [Event.sleep wait] from rfl,
      run_append]
    rfl
  constructor
  · rw [hrun, elapse_fire_delivered _ wait _ hdue, ih2, hdel1, ih1, ih6, hcb1]
    simp
  · rw [hrun, elapse_fire_state _ wait _ hdue]

/-- Claim C3: under continuous non-human arrival at one context at gaps
below timeout_seconds (so the rolling timer never fires), a flush still
occurs during the gap in which max_batch_wait — measured from the first
message and never reset — elapses: at that moment exactly one batch,
holding exactly the messages sent so far, has been delivered; it stays the
first delivered batch however the trace continues, and it is strictly
smaller than the total number of messages sent. -/
theorem claim_C3 (t w : Nat) (cb : List Message → Bool) (m0 mStar : Message)
    (rest1 rest2 : List (Nat × Message)) (gStar : Nat) (c : RoutingContext)
    (h0c : routingContext m0 = c) (h0h : isHuman m0 = false)
    (h1 : ∀ gm ∈ rest1, routingContext gm.2 = c ∧ isHuman gm.2 = false ∧
      gm.1 < t)
    (hg : gStar < t)
    (hlt : sumGaps rest1 < w)
    (hge : w ≤ sumGaps rest1 + gStar)
    (hsc : routingContext mStar = c)
    (h2 : ∀ gm ∈ rest2, routingContext gm.2 = c) :
    ((RollingMessageCollector.init t w cb).run
        (Event.add m0 :: burstTail rest1 ++ [Event.sleep gStar])).delivered
      c =
      [(m0 :: rest1.map Prod.snd, cb (m0 :: rest1.map Prod.snd))] ∧
    ((RollingMessageCollector.init t w cb).run
        (Event.add m0 :: burstTail rest1 ++ [Event.sleep gStar])).now =
      sumGaps rest1 + gStar ∧
    (((RollingMessageCollector.init t w cb).run
        (Event.add m0 :: burstTail
          (rest1 ++ (gStar, mStar) :: rest2))).delivered c).head? =
      some (m0 :: rest1.map Prod.snd, cb (m0 :: rest1.map Prod.snd)) ∧
    (m0 :: rest1.map Prod.snd).length <
      (m0 :: (rest1 ++ (gStar, mStar) :: rest2).map Prod.snd).length := by
  subst h0c
  have hcfg1 := add_message_config (RollingMessageCollector.init t w cb) m0
  have hnow1 : ((RollingMessageCollector.init t w cb).add_message m0).now =
      0 := by
    rw [add_message_now]
    rfl
  have ht1 : ((RollingMessageCollector.init t w cb).add_message
      m0).timeout_seconds = t := hcfg1.1
  have hst1 : ((RollingMessageCollector.init t w cb).add_message m0).state
      (routingContext m0) =
      ⟨[m0],
        some (((RollingMessageCollector.init t w cb).add_message m0).now +
          ((RollingMessageCollector.init t w cb).add_message
            m0).timeout_seconds),
        some w⟩ := by
    rw [add_message_agent_state _ m0 h0h, hnow1, ht1]
    simp [RollingMessageCollector.init, CtxState.idle]
  have hdel1 : ((RollingMessageCollector.init t w cb).add_message
      m0).delivered (routingContext m0) = [] := by
    rw [add_message_agent_delivered _ m0 h0h]
    rfl
  have hcb1 : ((RollingMessageCollector.init t w cb).add_message m0).cbOk =
      cb := hcfg1.2.2
  have hrest2 : ∀ gm ∈ rest1, routingContext gm.2 = routingContext m0 ∧
      isHuman gm.2 = false ∧
      gm.1 < ((RollingMessageCollector.init t w cb).add_message
        m0).timeout_seconds := by
    rw [ht1]
    exact h1
  have hA : ((RollingMessageCollector.init t w cb).add_message m0).now +
      sumGaps rest1 < w := by
    rw [hnow1]
    omega
  obtain ⟨ih1, ih2, ih3, ih4, ih5, ih6⟩ :=
    burstTail_run rest1 ((RollingMessageCollector.init t w cb).add_message m0)
      (routingContext m0) [m0] w hst1 (by simp) hrest2 hA
  rw [ht1] at ih1
  rw [hnow1] at ih3
  have hdue : deadlineDue
      ((((RollingMessageCollector.init t w cb).add_message m0).run
        (burstTail rest1)).state (routingContext m0))
      ((((RollingMessageCollector.init t w cb).add_message m0).run
        (burstTail rest1)).now + gStar) = true := by
    rw [ih1, deadlineDue_some, ih3]
    simp only [Bool.or_eq_true, decide_eq_true_eq]
    omega
  have hrun : (RollingMessageCollector.init t w cb).run
      (Event.add m0 :: burstTail rest1 ++ [Event.sleep gStar]) =
      (((RollingMessageCollector.init t w cb).add_message m0).run
        (burstTail rest1)).elapse gStar := by
    rw [show (Event.add m0 :: burstTail rest1 ++ [Event.sleep gStar] :
        List Event) =
      (Event.add m0 :: burstTail rest1) ++ [Event.sleep gStar] from rfl,
      run_append]
    rfl
  have hfirst : ((RollingMessageCollector.init t w cb).run
      (Event.add m0 :: burstTail rest1 ++ [Event.sleep gStar])).delivered
      (routingContext m0) =
      [(m0 :: rest1.map Prod.snd, cb (m0 :: rest1.map Prod.snd))] := by
    rw [hrun, elapse_fire_delivered _ gStar _ hdue, ih2, hdel1, ih1, ih6,
      hcb1]
    simp
  refine ⟨hfirst, ?_, ?_, ?_⟩
  · rw [hrun, elapse_now, ih3]
    omega
  · have hsplit : (Event.add m0 :: burstTail
        (rest1 ++ (gStar, mStar) :: rest2) : List Event) =
        (Event.add m0 :: burstTail rest1 ++ [Event.sleep gStar]) ++
          (Event.add mStar :: burstTail rest2) := by
      rw [burstTail_append]
      simp [burstTail]
    rw [hsplit, run_append]
    obtain ⟨tl, htl⟩ := run_delivered_mono
      (Event.add mStar :: burstTail rest2)
      ((RollingMessageCollector.init t w cb).run
        (Event.add m0 :: burstTail rest1 ++ [Event.sleep gStar]))
      (routingContext m0)
    rw [htl, hfirst]
    rfl
  · simp

/-- Claim C7: timer discipline over any reachable collector state: arming
the rolling timer on a non-human add_message overwrites (cancels) the
previously armed one, so each context carries at most the single armed
rolling deadline recorded in its state; a non-human add_message to a
non-empty batch leaves the absolute deadline untouched; a flush — whether
triggered by a human message or by a due timer — cancels both timers
(context back to IDLE); and a context with an empty buffer has no armed
timers at all, so no timer ever fires against an emptied buffer and every
delivered batch is non-empty. -/
theorem claim_C7 (t w : Nat) (cb : List Message → Bool) (es : List Event)
    (m : Message) (c : RoutingContext) (d : Nat) (b : List Message × Bool) :
    (isHuman m = false → routingContext m = c →
      ((((RollingMessageCollector.init t w cb).run es).add_message m).state
        c).rollingDeadline =
        some (((RollingMessageCollector.init t w cb).run es).now + t)) ∧
    (isHuman m = false → routingContext m = c →
      (((RollingMessageCollector.init t w cb).run es).state c).pending ≠
        [] →
      ((((RollingMessageCollector.init t w cb).run es).add_message m).state
        c).absDeadline =
        (((RollingMessageCollector.init t w cb).run es).state
          c).absDeadline) ∧
    (isHuman m = true → routingContext m = c →
      (((RollingMessageCollector.init t w cb).run es).add_message m).state
        c = CtxState.idle) ∧
    (deadlineDue (((RollingMessageCollector.init t w cb).run es).state c)
        (((RollingMessageCollector.init t w cb).run es).now + d) = true →
      (((RollingMessageCollector.init t w cb).run es).elapse d).state c =
        CtxState.idle) ∧
    ((((RollingMessageCollector.init t w cb).run es).state c).pending =
        [] →
      ((RollingMessageCollector.init t w cb).run es).state c =
        CtxState.idle) ∧
    (b ∈ ((RollingMessageCollector.init t w cb).run es).delivered c →
      b.1 ≠ []) := by
  refine ⟨?_, ?_, ?_, ?_, ?_, ?_⟩
  · intro hm hc
    subst hc
    have hT : (((RollingMessageCollector.init t w cb).run
        es)).timeout_seconds = t := (run_config es _).1
    rw [add_message_agent_state _ m hm, hT]
  · intro hm hc hp
    subst hc
    have hpe : ((((RollingMessageCollector.init t w cb).run es).state
        (routingContext m)).pending).isEmpty = false := by
      cases hq : (((RollingMessageCollector.init t w cb).run es).state
          (routingContext m)).pending with
      | nil => exact absurd hq hp
      | cons a as => rfl
    rw [add_message_agent_state _ m hm]
    simp [hpe]
  · intro hm hc
    subst hc
    exact add_message_human_state _ m hm
  · intro hd
    exact elapse_fire_state _ d c hd
  · exact (goodState_run es _ (goodState_init t w cb)).1 c
  · intro hb
    exact (goodState_run es _ (goodState_init t w cb)).2 c b hb

/-- Claim C1, counterexample: four non-human messages to one direct
context, arriving at consecutive gaps 1, 1, 1, each strictly below
timeout_seconds = 2, are nevertheless delivered as two batches (of sizes
3 and 1), because the burst outlasts max_batch_wait = 3 and the absolute
timer fires mid-burst — refuting "exactly one delivery batch of size N"
as stated. -/
theorem claim_C1_counterexample :
    ((RollingMessageCollector.init 2 3 (fun _ => true)).run
        cexTrace).delivered cexCtx =
      [([cexMsg "M1", cexMsg "M2", cexMsg "M3"], true),
        ([cexMsg "M4"], true)] ∧
    (((RollingMessageCollector.init 2 3 (fun _ => true)).run
        cexTrace).delivered cexCtx).length ≠ 1 := by
  constructor
  · decide
  · decide

/-- Witness for the amended claim C1 at a concrete two-message burst. -/
theorem claim_C1_amended_witness :
    ((RollingMessageCollector.init 2 3 (fun _ => true)).run
        (Event.add (cexMsg "M1") :: burstTail [(1, cexMsg "M2")] ++
          [Event.sleep 2])).delivered cexCtx =
      [([cexMsg "M1", cexMsg "M2"], true)] ∧
    ((RollingMessageCollector.init 2 3 (fun _ => true)).run
        (Event.add (cexMsg "M1") :: burstTail [(1, cexMsg "M2")] ++
          [Event.sleep 2])).state cexCtx = CtxState.idle := by
  have h := claim_C1_amended 2 3 2 (fun _ => true) (cexMsg "M1")
    [(1, cexMsg "M2")] cexCtx (by decide) (by decide) (by decide)
    (by decide) (by decide)
  exact ⟨h.1, h.2⟩

/-- Witness for claim C2 at a concrete pending batch and human message. -/
theorem claim_C2_witness :
    (sW.add_message humanMsgW).delivered cexCtx =
      sW.delivered cexCtx ++ [([cexMsg "A1", humanMsgW], true)] ∧
    (sW.add_message humanMsgW).state cexCtx = CtxState.idle := by
  have h := claim_C2 sW humanMsgW cexCtx [cexMsg "A1"] (by decide)
    (by decide) (by decide) (by decide)
  exact ⟨h.1, h.2.1⟩

/-- Witness for claim C3 at a concrete starving burst. -/
theorem claim_C3_witness :
    ((RollingMessageCollector.init 2 3 (fun _ => true)).run
        (Event.add (cexMsg "M1") ::
          burstTail [(1, cexMsg "M2"), (1, cexMsg "M3")] ++
            [Event.sleep 1])).delivered cexCtx =
      [([cexMsg "M1", cexMsg "M2", cexMsg "M3"], true)] ∧
    (((RollingMessageCollector.init 2 3 (fun _ => true)).run
        (Event.add (cexMsg "M1") ::
          burstTail ([(1, cexMsg "M2"), (1, cexMsg "M3")] ++
            (1, cexMsg "M4") :: []))).delivered cexCtx).head? =
      some ([cexMsg "M1", cexMsg "M2", cexMsg "M3"], true) := by
  have h := claim_C3 2 3 (fun _ => true) (cexMsg "M1") (cexMsg "M4")
    [(1, cexMsg "M2"), (1, cexMsg "M3")] [] 1 cexCtx (by decide) (by decide)
    (by decide) (by decide) (by decide) (by decide) (by decide) (by decide)
  exact ⟨h.1, h.2.2.1⟩

/-- Witness for claim C4 at a concrete lone message. -/
theorem claim_C4_witness :
    ((RollingMessageCollector.init 2 3 (fun _ => true)).run
        [Event.add (cexMsg "M1"), Event.sleep 1]).delivered cexCtx = [] ∧
    ((RollingMessageCollector.init 2 3 (fun _ => true)).run
        [Event.add (cexMsg "M1"), Event.sleep 2]).delivered cexCtx =
      [([cexMsg "M1"], true)] := by
  refine ⟨((claim_C4 2 3 (fun _ => true) (cexMsg "M1") cexCtx 1 (by decide)
      (by decide) (by decide)).1 (by decide)).1,
    ((claim_C4 2 3 (fun _ => true) (cexMsg "M1") cexCtx 2 (by decide)
      (by decide) (by decide)).2 (by decide)).1⟩

/-- Witness for claim C7 at a concrete reachable state. -/
theorem claim_C7_witness :
    ((((RollingMessageCollector.init 2 3 (fun _ => true)).run
        [Event.add (cexMsg "M1")]).add_message (cexMsg "M2")).state
      cexCtx).rollingDeadline =
      some (((RollingMessageCollector.init 2 3 (fun _ => true)).run
        [Event.add (cexMsg "M1")]).now + 2) ∧
    ((((RollingMessageCollector.init 2 3 (fun _ => true)).run
        [Event.add (cexMsg "M1")]).add_message (cexMsg "M2")).state
      cexCtx).absDeadline =
      (((RollingMessageCollector.init 2 3 (fun _ => true)).run
        [Event.add (cexMsg "M1")]).state cexCtx).absDeadline ∧
    (((RollingMessageCollector.init 2 3 (fun _ => true)).run
        [Event.add (cexMsg "M1")]).add_message humanMsgW).state cexCtx =
      CtxState.idle ∧
    (((RollingMessageCollector.init 2 3 (fun _ => true)).run
        [Event.add (cexMsg "M1")]).elapse 5).state cexCtx =
      CtxState.idle ∧
    ([cexMsg "M1", humanMsgW], true).1 ≠ ([] : List Message) := by
  have h1 := claim_C7 2 3 (fun _ => true) [Event.add (cexMsg "M1")]
    (cexMsg "M2") cexCtx 5 ([cexMsg "M1", humanMsgW], true)
  have h2 := claim_C7 2 3 (fun _ => true) [Event.add (cexMsg "M1")]
    humanMsgW cexCtx 5 ([cexMsg "M1", humanMsgW], true)
  have h3 := claim_C7 2 3 (fun _ => true)
    [Event.add (cexMsg "M1"), Event.add humanMsgW] (cexMsg "M2") cexCtx 5
    ([cexMsg "M1", humanMsgW], true)
  refine ⟨h1.1 (by decide) (by decide),
    h1.2.1 (by decide) (by decide) (by decide),
    h2.2.2.1 (by decide) (by decide),
    h1.2.2.2.1 (by decide),
    h3.2.2.2.2.2 (by decide)⟩
